import Mathlib

/-!
# Verification of the langchainjs message-utility layer

This file embeds, in Lean 4, the two pieces of the repository with
checkable logic:

* the `mergeMessageRuns` message-run merging transformation.  The
  repository only documents this function (a notebook shows its contract
  and observable behaviour); its implementation lives outside the sampled
  sources, so the definitions below are modelled from the specification's
  algorithm and content-merge rules.
* the `GoogleGenerativeAIEmbeddings` constructor and its dispatch between
  the `embedContent`-based and `embedText`-based embedding paths
  (`libs/langchain-google-genai/src/embeddings.ts`), embedded directly
  from the TypeScript source.
-/

/-- Modelled from the spec: the enumerated sender category of a message
(`system`, `human`, `ai`, `tool`, `generic`). The repository's message
classes are not in the sampled sources; the spec fixes this role enum. -/
inductive Role where
  | system
  | human
  | ai
  | tool
  | generic
deriving DecidableEq

/-- Modelled from the spec: one structured unit of message content — a
tagged union over block kinds, e.g. `{type: "text", text: string}` or
other typed payloads (tool-use, media, ...). -/
inductive ContentBlock where
  | text (text : String)
  | other (kind : String) (payload : String)
deriving DecidableEq

/-- Modelled from the spec: well-formed message content — either a plain
text string or an ordered sequence of content blocks (never both). -/
inductive MessageContent where
  | text (s : String)
  | blocks (bs : List ContentBlock)
deriving DecidableEq

/-- Modelled from the spec: one conversation turn — a `role` tag, a
content variant, an optional `name`, and an opaque metadata mapping that
is passed through unmodified. -/
structure Message where
  role : Role
  content : MessageContent
  name : Option String
  metadata : List (String × String)
deriving DecidableEq

/-- Modelled from the spec: the content-merge rule, applied pairwise as
accumulator ⊕ incoming.
* string ⊕ string: concatenate with a single newline separator between
  non-empty parts; a side whose string is empty contributes no separator.
* block-sequence ⊕ block-sequence: concatenate in order.
* mixed: promote the string side to a single `text` block placed in its
  original temporal position, then concatenate as block sequences. -/
def mergeContent : MessageContent → MessageContent → MessageContent
  | .text a, .text b =>
      .text (if a = "" then b else if b = "" then a else a ++ "\n" ++ b)
  | .blocks a, .blocks b => .blocks (a ++ b)
  | .text a, .blocks b => .blocks (ContentBlock.text a :: b)
  | .blocks a, .text b => .blocks (a ++ [ContentBlock.text b])

/-- Modelled from the spec: the merge scan with a non-empty current
accumulator.  An incoming message of the accumulator's role is folded
into the accumulator's content (metadata fields other than content are
taken from the first message of the run); a different role closes the
accumulator and starts a fresh one. -/
def mergeLoop : Message → List Message → List Message
  | acc, [] => [acc]
  | acc, m :: rest =>
    if m.role = acc.role then
      mergeLoop (Message.mk acc.role (mergeContent acc.content m.content) acc.name acc.metadata) rest
    else
      acc :: mergeLoop m rest

/-- Modelled from the spec: `merge` — the core `mergeMessageRuns`
transformation.  The input is scanned once, left to right; maximal runs
of same-role messages are collapsed per `mergeContent`; the empty input
yields the empty output. -/
def mergeMessageRuns : List Message → List Message
  | [] => []
  | m :: rest => mergeLoop m rest

/-- The role sequence of a message list. -/
def roles (ms : List Message) : List Role :=
  ms.map Message.role

/-- Adjacent messages have distinct roles. -/
def RoleAlt (a b : Message) : Prop :=
  a.role ≠ b.role

instance : DecidableRel RoleAlt := fun a b =>
  inferInstanceAs (Decidable (a.role ≠ b.role))

/-! ## Structural lemmas about the merge scan -/

/-- The scan with accumulator `acc` produces a non-empty list whose head
carries `acc`'s role, name and metadata. -/
theorem mergeLoop_head (rest : List Message) : ∀ acc : Message,
    ∃ c tl, mergeLoop acc rest = Message.mk acc.role c acc.name acc.metadata :: tl := by
  induction rest with
  | nil => exact fun acc => ⟨acc.content, [], rfl⟩
  | cons m rest ih =>
    intro acc
    by_cases h : m.role = acc.role
    · obtain ⟨c, tl, hc⟩ :=
        ih (Message.mk acc.role (mergeContent acc.content m.content) acc.name acc.metadata)
      exact ⟨c, tl, by rw [mergeLoop, if_pos h]; exact hc⟩
    · exact ⟨acc.content, mergeLoop m rest, by rw [mergeLoop, if_neg h]⟩

/-- The output of the scan has pairwise-distinct adjacent roles. -/
theorem mergeLoop_chain (rest : List Message) : ∀ acc : Message,
    (mergeLoop acc rest).Chain' RoleAlt := by
  induction rest with
  | nil => exact fun acc => List.chain'_singleton acc
  | cons m rest ih =>
    intro acc
    by_cases h : m.role = acc.role
    · rw [mergeLoop, if_pos h]; exact ih _
    · obtain ⟨c, tl, hc⟩ := mergeLoop_head rest m
      have hchain := ih m
      rw [hc] at hchain
      rw [mergeLoop, if_neg h, hc, List.chain'_cons]
      exact ⟨fun hr => h hr.symm, hchain⟩

/-- The merged output has pairwise-distinct adjacent roles. -/
theorem mergeMessageRuns_chain : ∀ ms : List Message,
    (mergeMessageRuns ms).Chain' RoleAlt
  | [] => List.chain'_nil
  | m :: rest => mergeLoop_chain rest m

/-- A scan over an input that already alternates is the identity. -/
theorem mergeLoop_of_chain (rest : List Message) : ∀ acc : Message,
    (acc :: rest).Chain' RoleAlt → mergeLoop acc rest = acc :: rest := by
  induction rest with
  | nil => exact fun acc _ => rfl
  | cons m rest ih =>
    intro acc hc
    rw [List.chain'_cons] at hc
    rw [mergeLoop, if_neg fun e => hc.1 e.symm, ih m hc.2]

/-- Merging an already-alternating sequence is the identity. -/
theorem mergeMessageRuns_of_chain : ∀ ms : List Message,
    ms.Chain' RoleAlt → mergeMessageRuns ms = ms
  | [], _ => rfl
  | m :: rest, h => mergeLoop_of_chain rest m h

/-- The scan never lengthens its input. -/
theorem mergeLoop_length_le (rest : List Message) : ∀ acc : Message,
    (mergeLoop acc rest).length ≤ rest.length + 1 := by
  induction rest with
  | nil => exact fun acc => Nat.le_refl 1
  | cons m rest ih =>
    intro acc
    by_cases h : m.role = acc.role
    · rw [mergeLoop, if_pos h]
      have := ih (Message.mk acc.role (mergeContent acc.content m.content) acc.name acc.metadata)
      simp only [List.length_cons]
      omega
    · rw [mergeLoop, if_neg h]
      have := ih m
      simp only [List.length_cons]
      omega

/-- The scan preserves length exactly when the input (with the
accumulator in front) already alternates. -/
theorem mergeLoop_length_eq_iff (rest : List Message) : ∀ acc : Message,
    ((mergeLoop acc rest).length = rest.length + 1 ↔ (acc :: rest).Chain' RoleAlt) := by
  induction rest with
  | nil => intro acc; simp [mergeLoop]
  | cons m rest ih =>
    intro acc
    by_cases h : m.role = acc.role
    · rw [mergeLoop, if_pos h]
      constructor
      · intro hlen
        exfalso
        have := mergeLoop_length_le rest
          (Message.mk acc.role (mergeContent acc.content m.content) acc.name acc.metadata)
        simp only [List.length_cons] at hlen
        omega
      · intro hc
        rw [List.chain'_cons] at hc
        exact absurd h.symm hc.1
    · rw [mergeLoop, if_neg h]
      rw [List.length_cons, List.length_cons, List.chain'_cons]
      constructor
      · intro hlen
        refine ⟨fun e => h e.symm, (ih m).mp ?_⟩
        simp only [List.length_cons] at hlen
        omega
      · rintro ⟨_, hc⟩
        have := (ih m).mpr hc
        omega

/-- The role sequence of the scan is the destuttering of the remaining
role sequence seeded with the accumulator's role. -/
theorem mergeLoop_roles (rest : List Message) : ∀ acc : Message,
    roles (mergeLoop acc rest) = List.destutter' (· ≠ ·) acc.role (roles rest) := by
  induction rest with
  | nil => exact fun acc => rfl
  | cons m rest ih =>
    intro acc
    by_cases h : m.role = acc.role
    · rw [mergeLoop, if_pos h, ih]
      show _ = List.destutter' (· ≠ ·) acc.role (m.role :: roles rest)
      rw [List.destutter'_cons, if_neg (by simp [h])]
    · rw [mergeLoop, if_neg h]
      show acc.role :: roles (mergeLoop m rest) =
        List.destutter' (· ≠ ·) acc.role (m.role :: roles rest)
      rw [List.destutter'_cons, if_pos (fun e => h e.symm), ih]

/-! ## Theorems for the merge-transformation claims -/

/-- C1: for every input sequence, the merged output satisfies role
alternation — the role of output message `i` differs from the role of
output message `i + 1` for every in-range index `i`. -/
theorem merge_role_alternation (ms : List Message) (i : Nat)
    (h : i + 1 < (mergeMessageRuns ms).length) :
    ((mergeMessageRuns ms).get ⟨i, by omega⟩).role ≠
      ((mergeMessageRuns ms).get ⟨i + 1, h⟩).role := by
  have hchain := List.chain'_iff_get.mp (mergeMessageRuns_chain ms) i (by omega)
  exact hchain

/-- Witness for C1 at a concrete two-message input. -/
theorem merge_role_alternation_witness :
    ((mergeMessageRuns
          [Message.mk .system (.text "a") none [], Message.mk .human (.text "b") none []]).get
        ⟨0, by decide⟩).role ≠
      ((mergeMessageRuns
          [Message.mk .system (.text "a") none [], Message.mk .human (.text "b") none []]).get
        ⟨1, by decide⟩).role :=
  merge_role_alternation
    [Message.mk .system (.text "a") none [], Message.mk .human (.text "b") none []] 0 (by decide)

/-- C2: the role sequence of the merged output is the input's role
sequence with consecutive duplicate roles collapsed to one occurrence
(the first of each run). -/
theorem merge_roles_destutter (ms : List Message) :
    roles (mergeMessageRuns ms) = (roles ms).destutter (· ≠ ·) := by
  cases ms with
  | nil => rfl
  | cons m rest =>
    show roles (mergeLoop m rest) = (m.role :: roles rest).destutter (· ≠ ·)
    rw [List.destutter_cons', mergeLoop_roles]

/-- C3: merging is idempotent — a second pass over merged output is a
no-op. -/
theorem merge_idempotent (ms : List Message) :
    mergeMessageRuns (mergeMessageRuns ms) = mergeMessageRuns ms :=
  mergeMessageRuns_of_chain _ (mergeMessageRuns_chain ms)

/-- C4: merging never lengthens the input, and preserves the length
exactly when no two adjacent input messages share a role. -/
theorem merge_length (ms : List Message) :
    (mergeMessageRuns ms).length ≤ ms.length ∧
      ((mergeMessageRuns ms).length = ms.length ↔ ms.Chain' RoleAlt) := by
  cases ms with
  | nil => exact ⟨Nat.le_refl 0, by simp [mergeMessageRuns]⟩
  | cons m rest =>
    constructor
    · show (mergeLoop m rest).length ≤ rest.length + 1
      exact mergeLoop_length_le rest m
    · show (mergeLoop m rest).length = rest.length + 1 ↔ _
      exact mergeLoop_length_eq_iff rest m

/-- Merging an adjacent same-role pair collapses it to one message that
keeps the first message's role, name and metadata and carries the merged
content. -/
theorem merge_pair (m₁ m₂ : Message) (hr : m₂.role = m₁.role) :
    mergeMessageRuns [m₁, m₂] =
      [Message.mk m₁.role (mergeContent m₁.content m₂.content) m₁.name m₁.metadata] := by
  show mergeLoop m₁ [m₂] = _
  rw [mergeLoop, if_pos hr, mergeLoop]

/-- C5: merging two adjacent same-role plain-string messages
concatenates the strings with a single newline separator between
non-empty parts and no separator for an empty side; in particular the
notebook scenarios [system:"a", system:"b", human:"c"] and three ai
strings "1","2","3" merge as documented. -/
theorem merge_string_pair (m₁ m₂ : Message) (a b : String)
    (hr : m₂.role = m₁.role) (h₁ : m₁.content = .text a) (h₂ : m₂.content = .text b) :
    (∃ c : String,
        mergeMessageRuns [m₁, m₂] = [Message.mk m₁.role (.text c) m₁.name m₁.metadata] ∧
          (a = "" → c = b) ∧ (b = "" → c = a) ∧
          (a ≠ "" → b ≠ "" → c = a ++ "\n" ++ b)) ∧
      mergeMessageRuns
          [Message.mk .system (.text "a") none [], Message.mk .system (.text "b") none [],
            Message.mk .human (.text "c") none []] =
        [Message.mk .system (.text "a\nb") none [], Message.mk .human (.text "c") none []] ∧
      mergeMessageRuns
          [Message.mk .ai (.text "1") none [], Message.mk .ai (.text "2") none [],
            Message.mk .ai (.text "3") none []] =
        [Message.mk .ai (.text "1\n2\n3") none []] := by
  refine ⟨?_, by decide, by decide⟩
  refine ⟨if a = "" then b else if b = "" then a else a ++ "\n" ++ b, ?_, ?_, ?_, ?_⟩
  · rw [merge_pair m₁ m₂ hr, h₁, h₂, mergeContent]
  · intro ha; simp [ha]
  · intro hb; by_cases ha : a = "" <;> simp [ha, hb]
  · intro ha hb; simp [ha, hb]

/-- Witness for C5 at the concrete input [system:"a", system:"b"]. -/
theorem merge_string_pair_witness :
    (∃ c : String,
        mergeMessageRuns
            [Message.mk .system (.text "a") none [], Message.mk .system (.text "b") none []] =
          [Message.mk .system (.text c) none []] ∧
          ("a" = "" → c = "b") ∧ ("b" = "" → c = "a") ∧
          ("a" ≠ "" → "b" ≠ "" → c = "a" ++ "\n" ++ "b")) ∧
      mergeMessageRuns
          [Message.mk .system (.text "a") none [], Message.mk .system (.text "b") none [],
            Message.mk .human (.text "c") none []] =
        [Message.mk .system (.text "a\nb") none [], Message.mk .human (.text "c") none []] ∧
      mergeMessageRuns
          [Message.mk .ai (.text "1") none [], Message.mk .ai (.text "2") none [],
            Message.mk .ai (.text "3") none []] =
        [Message.mk .ai (.text "1\n2\n3") none []] :=
  merge_string_pair (Message.mk .system (.text "a") none [])
    (Message.mk .system (.text "b") none []) "a" "b" rfl rfl rfl

/-- C6: merging an adjacent same-role pair that mixes a block-sequence
message with a plain-string message promotes the string side to a single
text block kept in its original temporal position and concatenates the
block sequences; in particular the notebook scenario
[human:[text "x"], human:"y"] merges as documented. -/
theorem merge_mixed_pair (m₁ m₂ : Message) (bs : List ContentBlock) (s : String)
    (hr : m₂.role = m₁.role) :
    (m₁.content = .blocks bs → m₂.content = .text s →
        mergeMessageRuns [m₁, m₂] =
          [Message.mk m₁.role (.blocks (bs ++ [ContentBlock.text s])) m₁.name m₁.metadata]) ∧
      (m₁.content = .text s → m₂.content = .blocks bs →
        mergeMessageRuns [m₁, m₂] =
          [Message.mk m₁.role (.blocks (ContentBlock.text s :: bs)) m₁.name m₁.metadata]) ∧
      mergeMessageRuns
          [Message.mk .human (.blocks [ContentBlock.text "x"]) none [],
            Message.mk .human (.text "y") none []] =
        [Message.mk .human (.blocks [ContentBlock.text "x", ContentBlock.text "y"]) none []] := by
  refine ⟨?_, ?_, by decide⟩
  · intro h₁ h₂
    rw [merge_pair m₁ m₂ hr, h₁, h₂, mergeContent]
  · intro h₁ h₂
    rw [merge_pair m₁ m₂ hr, h₁, h₂, mergeContent]

/-- Witness for C6 at the concrete input [human:[text "x"], human:"y"]. -/
theorem merge_mixed_pair_witness :
    ((Message.mk .human (.blocks [ContentBlock.text "x"]) none []).content =
          .blocks [ContentBlock.text "x"] →
        (Message.mk .human (.text "y") none []).content = .text "y" →
        mergeMessageRuns
            [Message.mk .human (.blocks [ContentBlock.text "x"]) none [],
              Message.mk .human (.text "y") none []] =
          [Message.mk .human (.blocks ([ContentBlock.text "x"] ++ [ContentBlock.text "y"]))
              none []]) ∧
      ((Message.mk .human (.blocks [ContentBlock.text "x"]) none []).content = .text "y" →
        (Message.mk .human (.text "y") none []).content = .blocks [ContentBlock.text "x"] →
        mergeMessageRuns
            [Message.mk .human (.blocks [ContentBlock.text "x"]) none [],
              Message.mk .human (.text "y") none []] =
          [Message.mk .human (.blocks (ContentBlock.text "y" :: [ContentBlock.text "x"]))
              none []]) ∧
      mergeMessageRuns
          [Message.mk .human (.blocks [ContentBlock.text "x"]) none [],
            Message.mk .human (.text "y") none []] =
        [Message.mk .human (.blocks [ContentBlock.text "x", ContentBlock.text "y"]) none []] :=
  merge_mixed_pair (Message.mk .human (.blocks [ContentBlock.text "x"]) none [])
    (Message.mk .human (.text "y") none []) [ContentBlock.text "x"] "y" rfl

/-! ## Malformed content and the error contract -/

/-- Modelled from the spec: raw message content as received — either
well-formed (a string or a block sequence) or malformed (neither). -/
inductive RawContent where
  | wellFormed (c : MessageContent)
  | malformed (tag : String)
deriving DecidableEq

/-- Modelled from the spec: a message whose content has not yet been
validated against the string-or-block-sequence requirement. -/
structure RawMessage where
  role : Role
  content : RawContent
  name : Option String
  metadata : List (String × String)
deriving DecidableEq

/-- Modelled from the spec: the single error kind raised by the merge
core, for content that is neither a string nor a block sequence. -/
inductive ContentFormatError where
  | contentFormatError
deriving DecidableEq

/-- Validate one raw message; malformed content fails. -/
def RawMessage.check : RawMessage → Except ContentFormatError Message
  | ⟨r, .wellFormed c, n, d⟩ => .ok (Message.mk r c n d)
  | ⟨_, .malformed _, _, _⟩ => .error .contentFormatError

/-- Validate every message of the input, left to right. -/
def checkAll : List RawMessage → Except ContentFormatError (List Message)
  | [] => .ok []
  | r :: rest =>
    match r.check with
    | .error e => .error e
    | .ok m =>
      match checkAll rest with
      | .error e => .error e
      | .ok ms => .ok (m :: ms)

/-- Modelled from the spec: the merge over raw input — it fails with
`ContentFormatError` before producing any output when some message's
content is neither a string nor a block sequence, and otherwise returns
the full merged sequence. -/
def mergeMessageRunsChecked (ms : List RawMessage) : Except ContentFormatError (List Message) :=
  match checkAll ms with
  | .error e => .error e
  | .ok cs => .ok (mergeMessageRuns cs)

/-- Validation fails exactly when some message's content is malformed. -/
theorem checkAll_error_iff (ms : List RawMessage) :
    checkAll ms = .error .contentFormatError ↔
      ∃ r ∈ ms, ∃ t, r.content = RawContent.malformed t := by
  induction ms with
  | nil => simp [checkAll]
  | cons r rest ih =>
    obtain ⟨rr, rc, rn, rd⟩ := r
    cases rc with
    | malformed t =>
      refine iff_of_true rfl ⟨_, List.mem_cons_self _ _, t, rfl⟩
    | wellFormed c =>
      cases hrest : checkAll rest with
      | error e =>
        cases e
        refine iff_of_true (by simp [checkAll, RawMessage.check, hrest]) ?_
        obtain ⟨rm, hm, t, ht⟩ := ih.mp hrest
        exact ⟨rm, List.mem_cons_of_mem _ hm, t, ht⟩
      | ok cs =>
        simp only [checkAll, RawMessage.check, hrest]
        refine iff_of_false (by simp) ?_
        rintro ⟨rm, hm, t, ht⟩
        rcases List.mem_cons.mp hm with hhd | htl
        · subst hhd
          simp at ht
        · have herr := ih.mpr ⟨rm, htl, t, ht⟩
          rw [hrest] at herr
          exact Except.noConfusion herr

/-- C7: the checked merge is total and raises exactly one error kind —
it fails with `ContentFormatError` if and only if some message's content
is neither a string nor a block sequence, and otherwise it returns a
full merged output (no partial result). -/
theorem merge_total_single_error (ms : List RawMessage) :
    (mergeMessageRunsChecked ms = .error .contentFormatError ↔
        ∃ r ∈ ms, ∃ t, r.content = RawContent.malformed t) ∧
      ((∃ r ∈ ms, ∃ t, r.content = RawContent.malformed t) ∨
        ∃ out, mergeMessageRunsChecked ms = .ok out) := by
  have herr : mergeMessageRunsChecked ms = .error .contentFormatError ↔
      checkAll ms = .error .contentFormatError := by
    unfold mergeMessageRunsChecked
    cases h : checkAll ms with
    | error e => cases e; simp
    | ok cs => simp
  constructor
  · rw [herr]
    exact checkAll_error_iff ms
  · by_cases hm : ∃ r ∈ ms, ∃ t, r.content = RawContent.malformed t
    · exact Or.inl hm
    · refine Or.inr ?_
      cases h : checkAll ms with
      | error e =>
        cases e
        exact absurd ((checkAll_error_iff ms).mp h) hm
      | ok cs =>
        refine ⟨mergeMessageRuns cs, ?_⟩
        unfold mergeMessageRunsChecked
        rw [h]

/-! ## The composable invocation wrapper -/

/-- Modelled from the spec: a deferred transformation handle — a
composable, not-yet-invoked representation of an operation taking a
value of type `α` to a value of type `β`. -/
structure Runnable (α β : Type) where
  invoke : α → β

/-- Modelled from the spec: compose the handle with a downstream stage;
invoking the composition runs the first stage and feeds its output to
the downstream stage. -/
def Runnable.pipe {α β γ : Type} (r : Runnable α β) (next : Runnable β γ) : Runnable α γ :=
  Runnable.mk fun a => next.invoke (r.invoke a)

/-- Modelled from the spec: the zero-argument call `mergeMessageRuns()`
— the deferred transformation handle wrapping the merge. -/
def mergeMessageRunsHandle : Runnable (List Message) (List Message) :=
  Runnable.mk mergeMessageRuns

/-- Modelled from the spec: the one-argument call
`mergeMessageRuns(messages)` — immediate invocation of the merge. -/
def mergeMessageRunsCall (ms : List Message) : List Message :=
  mergeMessageRuns ms

/-- C8: invoking the deferred handle — standalone or as the first stage
of a composed pipeline — yields exactly the merge of the input, and the
one-argument call equals the direct merge. -/
theorem merge_deferred_equiv (ms : List Message) (γ : Type)
    (next : Runnable (List Message) γ) :
    mergeMessageRunsHandle.invoke ms = mergeMessageRuns ms ∧
      (mergeMessageRunsHandle.pipe next).invoke ms = next.invoke (mergeMessageRuns ms) ∧
      mergeMessageRunsCall ms = mergeMessageRuns ms :=
  ⟨rfl, rfl, rfl⟩

/-! ## GoogleGenerativeAIEmbeddings (libs/langchain-google-genai/src/embeddings.ts)

JavaScript strings are modelled as Lean `String`; the JS truthiness test
on an optional string (`undefined` and `""` are falsy) is `truthy`
below; the string enum `TaskType` of the vendor SDK is `TaskType`
(every enumerant is a non-empty string, hence truthy exactly when the
field is present). -/

/-- The `TaskType` string enum of the `@google/generative-ai` SDK. -/
inductive TaskType where
  | TASK_TYPE_UNSPECIFIED
  | RETRIEVAL_QUERY
  | RETRIEVAL_DOCUMENT
  | SEMANTIC_SIMILARITY
  | CLASSIFICATION
  | CLUSTERING
deriving DecidableEq

/-- Constructor fields of `GoogleGenerativeAIEmbeddings`; every field is
optional in the TypeScript interface. -/
structure GoogleGenerativeAIEmbeddingsParams where
  modelName : Option String
  taskType : Option TaskType
  title : Option String
  stripNewLines : Option Bool
  apiKey : Option String
deriving DecidableEq

/-- `fields?.modelName?.replace(...)` with the anchored pattern removing
one leading "models/", defaulting to "embedding-001" when the field is
absent. -/
def normalizeModelName : Option String → String
  | some m => if m.data.take 7 = "models/".data then String.mk (m.data.drop 7) else m
  | none => "embedding-001"

/-- `_isEmbedContentModel`: the test of the anchored pattern
`embedding-` followed by one or more digits against the model name. -/
def isEmbedContentModel (m : String) : Bool :=
  decide (m.data.take 10 = "embedding-".data) &&
    decide (m.data.drop 10 ≠ []) &&
    (m.data.drop 10).all fun c => c.isDigit

/-- JS truthiness of an optional string: `undefined` and `""` are
falsy, every other string is truthy. -/
def truthy : Option String → Bool
  | some s => decide (s ≠ "")
  | none => false

/-- `fields?.apiKey ?? getEnvironmentVariable("GOOGLE_API_KEY")`. -/
def resolveApiKey (fieldKey envKey : Option String) : Option String :=
  match fieldKey with
  | some k => some k
  | none => envKey

/-- The four `throw new Error(...)` sites of the constructor. -/
inductive GoogleGenAIEmbeddingsError where
  | taskTypeUnsupported
  | titleUnsupported
  | titleWithoutRetrievalDocument
  | missingApiKey
deriving DecidableEq

/-- The state of a successfully constructed
`GoogleGenerativeAIEmbeddings` instance.  `clientIsEmbedContent` records
which vendor client was built (`GenerativeModel` vs
`TextServiceClient`). -/
structure GoogleGenerativeAIEmbeddings where
  modelName : String
  taskType : Option TaskType
  title : Option String
  stripNewLines : Bool
  apiKey : String
  clientIsEmbedContent : Bool
deriving DecidableEq

/-- The `GoogleGenerativeAIEmbeddings` constructor: normalizes the model
name, rejects `taskType`/`title` for non-`embedContent` models, rejects
`title` without `TaskType.RETRIEVAL_DOCUMENT`, resolves the API key from
the field or the `GOOGLE_API_KEY` environment variable and rejects a
falsy key, then builds the vendor client. -/
def constructGoogleGenerativeAIEmbeddings (fields : GoogleGenerativeAIEmbeddingsParams)
    (envGoogleApiKey : Option String) :
    Except GoogleGenAIEmbeddingsError GoogleGenerativeAIEmbeddings :=
  let modelName := normalizeModelName fields.modelName
  let isEC := isEmbedContentModel modelName
  if fields.taskType.isSome && !isEC then
    .error .taskTypeUnsupported
  else if truthy fields.title && !isEC then
    .error .titleUnsupported
  else if truthy fields.title && !(decide (fields.taskType = some TaskType.RETRIEVAL_DOCUMENT)) then
    .error .titleWithoutRetrievalDocument
  else
    match resolveApiKey fields.apiKey envGoogleApiKey with
    | none => .error .missingApiKey
    | some k =>
      if decide (k = "") then .error .missingApiKey
      else .ok (GoogleGenerativeAIEmbeddings.mk modelName fields.taskType fields.title true k isEC)

/-- Which embedding request path a method uses. -/
inductive EmbedPath where
  | content
  | text
deriving DecidableEq

/-- `embedQuery`: dispatches on `_isEmbedContentModel` between
`_embedQueryContent` and `_embedQueryText`. -/
def embedQueryPath (e : GoogleGenerativeAIEmbeddings) : EmbedPath :=
  if isEmbedContentModel e.modelName then .content else .text

/-- `embedDocuments`: dispatches on `_isEmbedContentModel` between
`_embedDocumentsContent` and per-document `_embedQueryText`. -/
def embedDocumentsPath (e : GoogleGenerativeAIEmbeddings) : EmbedPath :=
  if isEmbedContentModel e.modelName then .content else .text

/-- Declarative reading of the anchored pattern `embedding-` followed by
one or more digits: the name splits as the literal followed by a
non-empty run of digits. -/
def MatchesEmbeddingNumberPat (m : String) : Prop :=
  ∃ ds : List Char, m.data = "embedding-".data ++ ds ∧ ds ≠ [] ∧ ∀ c ∈ ds, c.isDigit = true

/-- The executable test agrees with the declarative reading of the
pattern. -/
theorem isEmbedContentModel_iff (m : String) :
    isEmbedContentModel m = true ↔ MatchesEmbeddingNumberPat m := by
  unfold isEmbedContentModel MatchesEmbeddingNumberPat
  simp only [Bool.and_eq_true, decide_eq_true_eq, List.all_eq_true]
  constructor
  · rintro ⟨⟨h1, h2⟩, h3⟩
    refine ⟨m.data.drop 10, ?_, h2, h3⟩
    conv_lhs => rw [← List.take_append_drop 10 m.data]
    rw [h1]
  · rintro ⟨ds, hm, hne, hall⟩
    have hlen : ("embedding-".data).length = 10 := rfl
    refine ⟨⟨?_, ?_⟩, ?_⟩
    · rw [hm]; exact List.take_left' hlen
    · rw [hm, List.drop_left' hlen]; exact hne
    · rw [hm, List.drop_left' hlen]; exact hall

/-- C9: the constructor throws exactly when a truthy `taskType` or a
truthy `title` is supplied for a model that is not an `embedContent`
model, or a truthy `title` is supplied while `taskType` is not
`RETRIEVAL_DOCUMENT`, or no truthy API key is available from the
`apiKey` field or the `GOOGLE_API_KEY` environment variable; otherwise
it succeeds. -/
theorem construct_error_iff (fields : GoogleGenerativeAIEmbeddingsParams)
    (envGoogleApiKey : Option String) :
    (∃ e, constructGoogleGenerativeAIEmbeddings fields envGoogleApiKey = .error e) ↔
      (fields.taskType.isSome = true ∧
          isEmbedContentModel (normalizeModelName fields.modelName) = false) ∨
        (truthy fields.title = true ∧
          isEmbedContentModel (normalizeModelName fields.modelName) = false) ∨
        (truthy fields.title = true ∧ fields.taskType ≠ some TaskType.RETRIEVAL_DOCUMENT) ∨
        truthy (resolveApiKey fields.apiKey envGoogleApiKey) = false := by
  cases hk : resolveApiKey fields.apiKey envGoogleApiKey with
  | none =>
    simp only [constructGoogleGenerativeAIEmbeddings, hk]
    split_ifs with h1 h2 h3 <;> simp [truthy, hk]
  | some key =>
    simp only [constructGoogleGenerativeAIEmbeddings, hk]
    split_ifs with h1 h2 h3 h4
    · simp only [Bool.and_eq_true, Bool.not_eq_true'] at h1
      exact iff_of_true ⟨_, rfl⟩ (Or.inl h1)
    · simp only [Bool.and_eq_true, Bool.not_eq_true'] at h2
      exact iff_of_true ⟨_, rfl⟩ (Or.inr (Or.inl h2))
    · simp only [Bool.and_eq_true, Bool.not_eq_true', decide_eq_false_iff_not] at h3
      exact iff_of_true ⟨_, rfl⟩ (Or.inr (Or.inr (Or.inl h3)))
    · rw [decide_eq_true_eq] at h4
      refine iff_of_true ⟨_, rfl⟩ (Or.inr (Or.inr (Or.inr ?_)))
      simp [truthy, h4]
    · rw [decide_eq_true_eq] at h4
      refine iff_of_false ?_ ?_
      · rintro ⟨e, he⟩
        exact he
      · rintro (⟨ha, hb⟩ | ⟨ha, hb⟩ | ⟨ha, hb⟩ | hfa)
        · exact h1 (by simp [ha, hb])
        · exact h2 (by simp [ha, hb])
        · exact h3 (by simp [ha, hb])
        · simp only [truthy, decide_eq_false_iff_not, not_not] at hfa
          exact h4 hfa

/-- `embedQuery` uses the `embedContent` path exactly when the stored
model name matches the embedding pattern. -/
theorem embedQueryPath_content_iff (e : GoogleGenerativeAIEmbeddings) :
    embedQueryPath e = EmbedPath.content ↔ MatchesEmbeddingNumberPat e.modelName := by
  unfold embedQueryPath
  by_cases hEC : isEmbedContentModel e.modelName = true
  · exact iff_of_true (by rw [if_pos hEC]) ((isEmbedContentModel_iff _).mp hEC)
  · refine iff_of_false (by rw [if_neg hEC]; exact fun h => EmbedPath.noConfusion h) ?_
    exact fun hp => hEC ((isEmbedContentModel_iff _).mpr hp)

/-- `embedDocuments` uses the `embedContent` path exactly when the
stored model name matches the embedding pattern. -/
theorem embedDocumentsPath_content_iff (e : GoogleGenerativeAIEmbeddings) :
    embedDocumentsPath e = EmbedPath.content ↔ MatchesEmbeddingNumberPat e.modelName := by
  unfold embedDocumentsPath
  by_cases hEC : isEmbedContentModel e.modelName = true
  · exact iff_of_true (by rw [if_pos hEC]) ((isEmbedContentModel_iff _).mp hEC)
  · refine iff_of_false (by rw [if_neg hEC]; exact fun h => EmbedPath.noConfusion h) ?_
    exact fun hp => hEC ((isEmbedContentModel_iff _).mpr hp)

/-- `embedQuery` falls back to the `embedText` path exactly when the
stored model name does not match the embedding pattern. -/
theorem embedQueryPath_text_iff (e : GoogleGenerativeAIEmbeddings) :
    embedQueryPath e = EmbedPath.text ↔ ¬ MatchesEmbeddingNumberPat e.modelName := by
  rw [← embedQueryPath_content_iff]
  cases h : embedQueryPath e <;> simp

/-- `embedDocuments` falls back to the `embedText` path exactly when the
stored model name does not match the embedding pattern. -/
theorem embedDocumentsPath_text_iff (e : GoogleGenerativeAIEmbeddings) :
    embedDocumentsPath e = EmbedPath.text ↔ ¬ MatchesEmbeddingNumberPat e.modelName := by
  rw [← embedDocumentsPath_content_iff]
  cases h : embedDocumentsPath e <;> simp

/-- C10: a constructed instance stores the supplied model name with one
leading "models/" stripped (or the default "embedding-001"), and both
`embedQuery` and `embedDocuments` use the `embedContent` path exactly
when that stored name matches `embedding-` followed by one or more
digits, and the `embedText` path otherwise. -/
theorem construct_dispatch (fields : GoogleGenerativeAIEmbeddingsParams)
    (envGoogleApiKey : Option String) (e : GoogleGenerativeAIEmbeddings)
    (h : constructGoogleGenerativeAIEmbeddings fields envGoogleApiKey = .ok e) :
    e.modelName = normalizeModelName fields.modelName ∧
      (∀ m : String, fields.modelName = some m →
        e.modelName =
          if m.data.take 7 = "models/".data then String.mk (m.data.drop 7) else m) ∧
      (fields.modelName = none → e.modelName = "embedding-001") ∧
      (embedQueryPath e = EmbedPath.content ↔ MatchesEmbeddingNumberPat e.modelName) ∧
      (embedDocumentsPath e = EmbedPath.content ↔ MatchesEmbeddingNumberPat e.modelName) ∧
      (embedQueryPath e = EmbedPath.text ↔ ¬ MatchesEmbeddingNumberPat e.modelName) ∧
      (embedDocumentsPath e = EmbedPath.text ↔ ¬ MatchesEmbeddingNumberPat e.modelName) := by
  have hname : e.modelName = normalizeModelName fields.modelName := by
    cases hk : resolveApiKey fields.apiKey envGoogleApiKey with
    | none =>
      simp only [constructGoogleGenerativeAIEmbeddings, hk] at h
      split_ifs at h
    | some key =>
      simp only [constructGoogleGenerativeAIEmbeddings, hk] at h
      split_ifs at h
      injection h with h2
      subst h2
      rfl
  refine ⟨hname, ?_, ?_, embedQueryPath_content_iff e, embedDocumentsPath_content_iff e,
    embedQueryPath_text_iff e, embedDocumentsPath_text_iff e⟩
  · intro m hm
    rw [hname, hm, normalizeModelName]
  · intro hm
    rw [hname, hm, normalizeModelName]

/-- Witness for C10 at `modelName = "models/embedding-001"` and an
explicit API key. -/
theorem construct_dispatch_witness :
    (GoogleGenerativeAIEmbeddings.mk "embedding-001" none none true "key" true).modelName =
        normalizeModelName (some "models/embedding-001") ∧
      (∀ m : String, (some "models/embedding-001" : Option String) = some m →
        (GoogleGenerativeAIEmbeddings.mk "embedding-001" none none true "key" true).modelName =
          if m.data.take 7 = "models/".data then String.mk (m.data.drop 7) else m) ∧
      ((some "models/embedding-001" : Option String) = none →
        (GoogleGenerativeAIEmbeddings.mk "embedding-001" none none true "key" true).modelName =
          "embedding-001") ∧
      (embedQueryPath (GoogleGenerativeAIEmbeddings.mk "embedding-001" none none true "key" true) =
          EmbedPath.content ↔
        MatchesEmbeddingNumberPat
          (GoogleGenerativeAIEmbeddings.mk "embedding-001" none none true "key" true).modelName) ∧
      (embedDocumentsPath
            (GoogleGenerativeAIEmbeddings.mk "embedding-001" none none true "key" true) =
          EmbedPath.content ↔
        MatchesEmbeddingNumberPat
          (GoogleGenerativeAIEmbeddings.mk "embedding-001" none none true "key" true).modelName) ∧
      (embedQueryPath (GoogleGenerativeAIEmbeddings.mk "embedding-001" none none true "key" true) =
          EmbedPath.text ↔
        ¬ MatchesEmbeddingNumberPat
          (GoogleGenerativeAIEmbeddings.mk "embedding-001" none none true "key" true).modelName) ∧
      (embedDocumentsPath
            (GoogleGenerativeAIEmbeddings.mk "embedding-001" none none true "key" true) =
          EmbedPath.text ↔
        ¬ MatchesEmbeddingNumberPat
          (GoogleGenerativeAIEmbeddings.mk "embedding-001" none none true "key" true).modelName) :=
  construct_dispatch
    (GoogleGenerativeAIEmbeddingsParams.mk (some "models/embedding-001") none none none
      (some "key"))
    none (GoogleGenerativeAIEmbeddings.mk "embedding-001" none none true "key" true) (by rfl)
